import Mathlib

/-!
Verification of the shellwrapper interactive-wizard engine.

The Go source is shallowly embedded here.  Text is modelled as `List Char`
(`Str`); Go byte-level checks on ASCII inputs coincide with character-level
checks.  Go maps are modelled as association lists where an update prepends
and a lookup takes the first match.  The `container/list` history buffer is
modelled as a Lean list whose head is the front (most recent) element.
-/

namespace Shellwrapper

/-- Strings are modelled as lists of characters. -/
abbrev Str := List Char

/-- Helper turning a Lean string literal into the `Str` model. -/
def str (s : String) : Str := s.data

/-- The single-quote character (ASCII 39), used in several shell messages. -/
def sq : Char := Char.ofNat 39

/-- Association-list update, modelling a Go map assignment `m[k] = v`:
lookups take the first (most recent) binding. -/
def setKV {α : Type} (m : List (Str × α)) (k : Str) (v : α) : List (Str × α) :=
  (k, v) :: m

/-- Association-list lookup, modelling a Go map read `m[k]` (with presence
flag). -/
def getKV {α : Type} (m : List (Str × α)) (k : Str) : Option α :=
  (m.find? (fun p => p.1 = k)).map (fun p => p.2)

/-- Go `strings.ReplaceAll(s, c, "")` for a single-character pattern:
removes every occurrence of `c`. -/
def removeChar (c : Char) (s : Str) : Str := s.filter (fun x => x ≠ c)

/-- Go `strings.Trim(s, " ")`: strips leading and trailing space characters
(only spaces, unlike Lean's `String.trim`). -/
def trimSpaces (s : Str) : Str :=
  ((s.dropWhile (fun x => x = ' ')).reverse.dropWhile (fun x => x = ' ')).reverse

/-- `sanitize` from main.go: removes newlines and tabs, then trims spaces. -/
def sanitize (s : Str) : Str :=
  trimSpaces (removeChar '\t' (removeChar '\n' s))

/-- Go `strings.TrimSuffix(s, "\n")`: removes one trailing newline if
present. -/
def trimSuffixNL (s : Str) : Str :=
  if s.getLast? = some '\n' then s.dropLast else s

/-- One record of the history buffer (`BufferObject` in main.go).
The `Time` field is omitted: no claim mentions timestamps. -/
structure BufferObject where
  In : Str
  Out : Str
  hidden : Bool
  deriving DecidableEq, Repr

/-- The history-buffer update of `shellOutput` (main.go): if the buffer has
reached the configured size, the back (oldest) record is removed, then the
new record is pushed to the front.  The head of the list is the front. -/
def shellOutput (bufferSize : Nat) (b : BufferObject) (buf : List BufferObject) :
    List BufferObject :=
  b :: (if bufferSize ≤ buf.length then buf.dropLast else buf)

/-- Insert a sequence of records (oldest first) into a buffer via
`shellOutput`. -/
def insertAll (bufferSize : Nat) (rs : List BufferObject) (buf : List BufferObject) :
    List BufferObject :=
  rs.foldl (fun acc r => shellOutput bufferSize r acc) buf

/-- `lastCommand` from main.go: scans the buffer front to back and returns
the first record whose `In` field is non-empty; the `hidden` flag is not
consulted. -/
def lastCommand : List BufferObject → Str
  | [] => []
  | b :: rest => if b.In.length < 1 then lastCommand rest else b.In

/-- The recall function as the specification describes it: skips records
that are hidden or have empty input.  Stated only to be compared with
`lastCommand`, which is the translation of the source. -/
def lastCommandClaimed : List BufferObject → Str
  | [] => []
  | b :: rest =>
    if b.hidden ∨ b.In.length < 1 then lastCommandClaimed rest else b.In

/-- ASCII escape character (byte 27). -/
def esc : Char := Char.ofNat 27

/-- `special` from main.go: an input of three or more bytes starting with
ESC-[ is replaced — arrow-up (final byte 65, `A`) becomes the last
recalled command, any other escape collapses to empty.  Byte checks on
ASCII input are modelled at character level. -/
def special (lastCmd : Str) (s : Str) : Str :=
  match s with
  | a :: b :: c :: _ =>
    if a = esc ∧ b = '[' then (if c = 'A' then lastCmd else []) else s
  | _ => s

/-- `emptyUserInput` from main.go: trims one trailing newline; when the
reader is not awaiting an answer, the token is empty and the current flow
node has a default, the default is substituted and echoed (recorded via
`waitForShellOutput` with the default as both input and output).  Returns
the token and the optional echo record. -/
def emptyUserInput (awaitingAnswer defaultTok tok : Str) :
    Str × Option BufferObject :=
  let t := trimSuffixNL tok
  if awaitingAnswer.length < 1 ∧ t.length < 1 ∧ defaultTok.length > 0 then
    (defaultTok, some ⟨defaultTok, defaultTok, false⟩)
  else (t, none)

/-- The token-producing pipeline of `waitForInput` (main.go) for a
successfully read line `raw`: sanitize, apply the special-sequence
transform (which recalls via `lastCommand` on the buffer), then resolve
empty input against the node default. -/
def processLine (awaitingAnswer defaultTok : Str) (buf : List BufferObject)
    (raw : Str) : Str × Option BufferObject :=
  emptyUserInput awaitingAnswer defaultTok (special (lastCommand buf) (sanitize raw))

/-- Go `strconv.Atoi`: optional sign, one or more decimal digits, value
within the 64-bit int range; anything else is a parse error (`none`). -/
def goAtoi (s : Str) : Option Int :=
  let core : Bool × Str :=
    match s with
    | '+' :: rest => (false, rest)
    | '-' :: rest => (true, rest)
    | l => (false, l)
  match core with
  | (neg, ds) =>
    if ds.length < 1 then none
    else if ds.all (fun c => decide ('0' ≤ c) && decide (c ≤ '9')) then
      let v : Nat := ds.foldl (fun a c => a * 10 + (c.toNat - '0'.toNat)) 0
      let i : Int := if neg then -(v : Int) else (v : Int)
      if decide (-(2 ^ 63) ≤ i) && decide (i ≤ 2 ^ 63 - 1) then some i else none
    else none

/-- Session answer state: the pending question key, the three typed answer
maps and the transcript of emitted hint/question lines (most recent
first).  The float value type `F` and its parser are parameters wherever
they occur, abstracting Go's `float64` and `strconv.ParseFloat` (library
code, not part of this repository). -/
structure AnswerSt (F : Type) where
  awaitingAnswer : Str
  qas : List (Str × Str)
  intQas : List (Str × Int)
  floatQas : List (Str × F)
  outputs : List Str

/-- `handleAnswer` from main.go: the exit sentinel is accepted without
storing; empty input is rejected; otherwise the raw input is stored as the
string answer under the pending key and accepted. -/
def handleAnswer {F : Type} (exitUUID : Str) (command : Str) (st : AnswerSt F) :
    Bool × AnswerSt F :=
  if command = exitUUID then (true, st)
  else if command.length < 1 then (false, st)
  else (true, { st with qas := setKV st.qas st.awaitingAnswer command })

/-- The integer hint line of `handleIntAnswer`. -/
def intHint : Str := str "> Please enter an integer e.g. 34"

/-- The float hint line of `handleFloatAnswer`. -/
def floatHint : Str := str "> Please enter a number e.g. 3.1415"

/-- `handleIntAnswer` from main.go: delegates to `handleAnswer`, then
parses; a parse failure emits the integer hint and rejects; success stores
the parsed value under the pending key and accepts. -/
def handleIntAnswer {F : Type} (exitUUID : Str) (command : Str) (st : AnswerSt F) :
    Bool × AnswerSt F :=
  match handleAnswer exitUUID command st with
  | (false, st1) => (false, st1)
  | (true, st1) =>
    match goAtoi command with
    | none => (false, { st1 with outputs := intHint :: st1.outputs })
    | some n => (true, { st1 with intQas := setKV st1.intQas st1.awaitingAnswer n })

/-- `handleFloatAnswer` from main.go, with `strconv.ParseFloat` abstracted
as the parameter `parseFloat`. -/
def handleFloatAnswer {F : Type} (parseFloat : Str → Option F)
    (exitUUID : Str) (command : Str) (st : AnswerSt F) : Bool × AnswerSt F :=
  match handleAnswer exitUUID command st with
  | (false, st1) => (false, st1)
  | (true, st1) =>
    match parseFloat command with
    | none => (false, { st1 with outputs := floatHint :: st1.outputs })
    | some x => (true, { st1 with floatQas := setKV st1.floatQas st1.awaitingAnswer x })

/-- The per-round message display of `awaitAnyInput`: when a question
message is set it is re-displayed before each read. -/
def pushMsg {F : Type} (message : Str) (st : AnswerSt F) : AnswerSt F :=
  if message.length > 0 then { st with outputs := message :: st.outputs } else st

/-- `awaitAnyInput` from main.go, driven by a finite list of submissions:
each round re-displays the question message (when non-empty) and feeds the
next submission to the handler, until the handler accepts.  Returns `none`
when the submissions run out (the real loop keeps waiting for more). -/
def awaitAnyInput {F : Type} (handler : Str → AnswerSt F → Bool × AnswerSt F)
    (message : Str) : List Str → AnswerSt F → Option (AnswerSt F)
  | [], _ => none
  | i :: rest, st =>
    match handler i (pushMsg message st) with
    | (true, st2) => some st2
    | (false, st2) => awaitAnyInput handler message rest st2

/-- `GetValue` from main.go: a Go map read returning the zero value (the
empty string) when the key is absent. -/
def GetValue {F : Type} (st : AnswerSt F) (storedAs : Str) : Str :=
  (getKV st.qas storedAs).getD []

/-- `reservedWord` predicate (main.go panics on these): `exit`, `quit`,
`back`. -/
def reservedWord (input : Str) : Bool :=
  input = str "exit" || input = str "quit" || input = str "back"

/-- The panic message raised for a reserved word (main.go). -/
def reservedMsg (input : Str) : Str :=
  input ++ str " is a reserved word; please use inputs other than: exit, back, quit"

/-- Builder-time state of one flow node: the displayed option order
(`BaseCommands`) and the child-map keys registered so far (`Flows`). -/
structure BuilderSt where
  baseCommands : List Str
  children : List Str
  deriving DecidableEq, Repr

/-- One registration step of `addCommand` for token `c`: the first token
of the variadic list is appended to `BaseCommands`; every token is mapped
to the shared new child node (`setFlow`). -/
def registerCommand (c : Str) (added : Bool) (st : BuilderSt) : BuilderSt :=
  { baseCommands := if added then st.baseCommands else st.baseCommands ++ [c]
    children := c :: st.children }

/-- `addCommand` from main.go with the reserved-word panic made explicit:
tokens are processed in order; a reserved token aborts with the panic
message, leaving only the registrations made before it; otherwise every
token is registered.  Returns the state reached, the panic message if one
was raised, and the `commandAdded` result. -/
def addCommandRun : List Str → BuilderSt → Bool → BuilderSt × Option Str × Bool
  | [], st, added => (st, none, added)
  | c :: rest, st, added =>
    if reservedWord c then (st, some (reservedMsg c), added)
    else addCommandRun rest (registerCommand c added st) true

/-- `addCommand` entry point (invoked by `IfUserInputs` with its variadic
input list). -/
def addCommand (inputs : List Str) (st : BuilderSt) : BuilderSt × Option Str × Bool :=
  addCommandRun inputs st false

/-- One flow node as the session loop sees it: instruction, displayed
options, default token and the child map (token to node id; the graph is
immutable during dispatch). -/
structure FlowNode where
  instruction : Str
  baseCommands : List Str
  defaultTok : Str
  flows : List (Str × Nat)

/-- Session-loop state for command dispatch: the current node id, the
history buffer, and the terminated flag (`exit()` reached). -/
structure Sess where
  current : Nat
  buffer : List BufferObject
  exited : Bool
  deriving DecidableEq, Repr

/-- `badCommand` from main.go: records and prints the
unrecognised-command message (newlines stripped from the echoed token)
through `shellOutput`. -/
def badCommand (bufferSize : Nat) (command : Str) (st : Sess) : Sess :=
  let msg : Str :=
    str "> unrecognised command " ++ [sq] ++ removeChar '\n' command ++ [sq]
  { st with buffer := shellOutput bufferSize ⟨command, msg, false⟩ st.buffer }

/-- `flowCommand` from main.go: resolves the token against the current
node's child map and advances the current-flow pointer on a match. -/
def flowCommand (graph : Nat → FlowNode) (command : Str) (st : Sess) : Option Sess :=
  match getKV (graph st.current).flows command with
  | none => none
  | some nid => some { st with current := nid }

/-- `handleCommand` from main.go: the error sentinel is dropped silently;
`quit`/`exit` terminate the session; the exit sentinel accepts; any other
token is resolved against the current node's children, and an unmatched
token is reported via `badCommand` with the state otherwise unchanged. -/
def handleCommand (graph : Nat → FlowNode) (errorUUID exitUUID : Str)
    (bufferSize : Nat) (command : Str) (st : Sess) : Bool × Sess :=
  if command = errorUUID then (false, st)
  else if command = str "quit" ∨ command = str "exit" then
    (false, { st with exited := true })
  else if command = exitUUID then (true, st)
  else
    match flowCommand graph command st with
    | some st1 => (true, st1)
    | none => (false, badCommand bufferSize command st)

/-- `instruct` from main.go: the prompt shown before a read in command
mode; suppressed when the current node has no children (`emptyFlow`). -/
def instruct (n : FlowNode) : Option Str :=
  if n.flows.length < 1 then none
  else
    let base := str "> " ++ n.instruction ++ str " [options: " ++
      (n.baseCommands.intersperse (str ", ")).flatten ++ str "]"
    some (if n.defaultTok.length > 0 then
      base ++ str " (default " ++ [sq] ++ n.defaultTok ++ [sq] ++ str ")"
    else base)

/-- Events attached to a flow node, as needed for the GoTo/Quit claims: a
Quit event displays its farewell and terminates; a GoTo event invokes the
branch closure registered under its name (a nil closure if the name was
never registered); a Display event prints a line. -/
inductive CEvent where
  | quitEvt (msg : Str)
  | gotoEvt (name : Str) (instruction : Str)
  | displayEvt (msg : Str)
  deriving DecidableEq, Repr

/-- Result of driving one node's event list: chronological outputs, the
terminated flag, and whether a runtime panic occurred. -/
structure CRun where
  outputs : List Str
  terminated : Bool
  panicked : Bool
  deriving DecidableEq, Repr

/-- `runEvents` from main.go, fuelled against GoTo cycles: an exhausted
event list terminates the session (`exit()`); a Quit event displays
`"> " ++ msg` and terminates without running the remaining events
(`ThenQuit` blocks inside `exit()`); a GoTo event whose branch name is
unregistered calls a nil closure — a runtime panic; a registered branch
appends its events and propagation continues. -/
def runCEvents (branches : List (Str × List CEvent)) :
    Nat → List CEvent → CRun
  | 0, _ => ⟨[], false, false⟩
  | _ + 1, [] => ⟨[], true, false⟩
  | _ + 1, CEvent.quitEvt msg :: _ => ⟨[str "> " ++ msg], true, false⟩
  | fuel + 1, CEvent.gotoEvt name _ :: rest =>
    (match getKV branches name with
    | none => ⟨[], false, true⟩
    | some evs => runCEvents branches fuel (rest ++ evs))
  | fuel + 1, CEvent.displayEvt msg :: rest =>
    let r := runCEvents branches fuel rest
    { r with outputs := (str "> " ++ msg) :: r.outputs }

/-- The quit message substituted for an unknown branch name (`GoTo`,
main.go). -/
def branchNotFound (name : Str) : Str :=
  str "branch " ++ [sq] ++ name ++ [sq] ++ str " not found"

/-- `GoTo` from main.go, restricted to its effect on the configured
node's event list: an unregistered name appends a Quit event carrying the
not-found message (via `ThenQuit`) and then, unconditionally, the GoTo
event itself (whose closure is nil in that case). -/
def goTo (branches : List (Str × List CEvent)) (name instruction : Str)
    (events : List CEvent) : List CEvent :=
  match getKV branches name with
  | none =>
    events ++ [CEvent.quitEvt (branchNotFound name), CEvent.gotoEvt name instruction]
  | some _ => events ++ [CEvent.gotoEvt name instruction]

/-- The tick period of the progress animation in milliseconds
(`JITTER_TIME`). -/
def JITTER_TIME : Nat := 140

/-- Cooperative callback model: the callback runs for `ticksToComplete`
animation ticks and then returns `errWhenCancelled` if cancellation has
been signalled by that point, else `errWhenFree` — mirroring the `select`
on `ctx.Done()` that every callback in this repository performs. -/
structure ExecModel where
  ticksToComplete : Nat
  errWhenCancelled : Option Str
  errWhenFree : Option Str

/-- The first tick index (1-based) at which the jitter's accumulated count
exceeds `waitFor` (`j.count > j.waitFor` with `count = 140 * tick`). -/
def deadlineTick (waitFor : Nat) : Nat := waitFor / JITTER_TIME + 1

/-- Whether the jitter goroutine fires cancellation before the callback
completes: its deadline tick comes no later than the callback's completion
tick. -/
def jitterCancels (waitFor : Nat) (m : ExecModel) : Bool :=
  deadlineTick waitFor ≤ m.ticksToComplete

/-- The error the callback itself returns under this schedule. -/
def callbackResult (waitFor : Nat) (m : ExecModel) : Option Str :=
  if jitterCancels waitFor m then m.errWhenCancelled else m.errWhenFree

/-- `runFunc` from main.go: the select's `ctx.Done()` branch (returning
the context's own error) is taken only if cancellation fired before the
select runs — impossible, since the earliest cancellation is at tick 1
while the select runs immediately; otherwise the callback runs to
completion, cancel is fired, and the callback's own error is returned. -/
def runFunc (waitFor : Nat) (m : ExecModel) : Option Str :=
  if deadlineTick waitFor = 0 then some (str "context canceled")
  else callbackResult waitFor m

/-- The terminal line the jitter renders: `"...error"` when its deadline
fired, `"...done"` when it observed the callback's cancel. -/
def jitterFinalLine (waitFor : Nat) (message : Str) (m : ExecModel) : Str :=
  if jitterCancels waitFor m then str "> " ++ message ++ str "  ...error"
  else str "> " ++ message ++ str "  ...done"

/-- One flow node of the engine revision carrying the at-most-once flag
(part_001, with flow/flow.go): presence of the exec and branch/goto
callbacks plus the `Executed` flag. -/
structure FlowN where
  execPresent : Bool
  flowPresent : Bool
  executed : Bool
  deriving DecidableEq, Repr

/-- Which callbacks one visit invoked. -/
structure VisitLog where
  execRan : Bool
  flowRan : Bool
  deriving DecidableEq, Repr

/-- `runFlowFunc` (part_001): the exec callback runs only when present and
not yet executed, after which the `Executed` flag is set; the branch/goto
closure (`Flow`) runs on every visit. -/
def runFlowFunc (f : FlowN) : FlowN × VisitLog :=
  let execRan := f.execPresent && !f.executed
  let f1 := if execRan then { f with executed := true } else f
  (f1, ⟨execRan, f1.flowPresent⟩)

end Shellwrapper

namespace Shellwrapper

theorem insertAll_append (n : Nat) (rs : List BufferObject) (r : BufferObject)
    (buf : List BufferObject) :
    insertAll n (rs ++ [r]) buf = shellOutput n r (insertAll n rs buf) := by
  simp [insertAll, List.foldl_append]

theorem shellOutput_take (n : Nat) (hn : 1 ≤ n) (r : BufferObject)
    (l : List BufferObject) :
    shellOutput n r (l.take n) = (r :: l).take n := by
  rcases Nat.lt_or_ge l.length n with h | h
  · have ht : l.take n = l := List.take_of_length_le (Nat.le_of_lt h)
    have ht2 : l.take (n - 1) = l := by
      rcases Nat.lt_or_ge l.length (n - 1) with h2 | h2
      · exact List.take_of_length_le (Nat.le_of_lt h2)
      · have : l.length = n - 1 := Nat.le_antisymm (by omega) h2
        exact List.take_of_length_le (Nat.le_of_eq this)
    simp [shellOutput, ht, ht2, List.take_cons (by omega : 0 < n)]
    intro hle
    omega
  · have hlen : (l.take n).length = n := by
      simp [List.length_take, Nat.min_eq_left h]
    have hd : (l.take n).dropLast = l.take (n - 1) := by
      rw [List.dropLast_eq_take, hlen, List.take_take]
      congr 1
      omega
    simp [shellOutput, hlen, hd, List.take_cons (by omega : 0 < n)]

theorem insertAll_nil_eq_take (n : Nat) (hn : 1 ≤ n) (rs : List BufferObject) :
    insertAll n rs [] = rs.reverse.take n := by
  induction rs using List.reverseRecOn with
  | nil => simp [insertAll]
  | append_singleton rs r ih =>
    rw [insertAll_append, ih, List.reverse_append]
    simpa using shellOutput_take n hn r rs.reverse

theorem lastCommand_skips_empty (pre post : List BufferObject) (b : BufferObject)
    (hpre : ∀ p ∈ pre, p.In = []) (hb : b.In ≠ []) :
    lastCommand (pre ++ b :: post) = b.In := by
  induction pre with
  | nil =>
    have : ¬ b.In.length < 1 := by
      cases h : b.In with
      | nil => exact absurd h hb
      | cons c cs => simp [h]
    simp [lastCommand, this]
  | cons p pre ih =>
    have hp : p.In = [] := hpre p (by simp)
    simp only [List.cons_append, lastCommand, hp]
    exact ih (fun q hq => hpre q (by simp [hq]))

theorem lastCommand_all_empty (buf : List BufferObject)
    (hbuf : ∀ p ∈ buf, p.In = []) : lastCommand buf = [] := by
  induction buf with
  | nil => rfl
  | cons p rest ih =>
    have hp : p.In = [] := hbuf p (by simp)
    simp only [lastCommand, hp]
    exact ih (fun q hq => hbuf q (by simp [hq]))

/-- C4 counterexample: the claim says recall skips hidden records, but
`lastCommand` never consults the `hidden` flag.  On a buffer holding a
single hidden record with non-empty input, the code returns that record's
input, while the claimed behaviour (`lastCommandClaimed`) returns the empty
string. -/
theorem lastCommand_returns_hidden_record :
    lastCommand [⟨str "x", str "y", true⟩] = str "x" ∧
    lastCommandClaimed [⟨str "x", str "y", true⟩] = [] := by
  constructor <;> rfl

/-- C4 (amended): `lastCommand` returns the input of the most recent record
whose input is non-empty, skipping records with empty input only (hidden
records are NOT skipped), and returns the empty string when every record's
input is empty. -/
theorem lastCommand_most_recent_nonempty
    (pre post buf : List BufferObject) (b : BufferObject)
    (hpre : ∀ p ∈ pre, p.In = []) (hb : b.In ≠ [])
    (hbuf : ∀ p ∈ buf, p.In = []) :
    lastCommand (pre ++ b :: post) = b.In ∧ lastCommand buf = [] :=
  ⟨lastCommand_skips_empty pre post b hpre hb, lastCommand_all_empty buf hbuf⟩

/-- C4 witness: the amended theorem applied to a concrete buffer in which a
hidden record and an empty-input record precede the record recalled. -/
theorem lastCommand_most_recent_nonempty_witness :
    lastCommand [⟨[], str "prompt", false⟩, ⟨str "yes", str "yes", true⟩,
        ⟨str "no", str "no", false⟩] = str "yes" ∧
    lastCommand [⟨[], str "a", false⟩, ⟨[], str "b", true⟩] = [] :=
  lastCommand_most_recent_nonempty
    [⟨[], str "prompt", false⟩] [⟨str "no", str "no", false⟩]
    [⟨[], str "a", false⟩, ⟨[], str "b", true⟩]
    ⟨str "yes", str "yes", true⟩
    (by decide) (by decide) (by decide)

/-- C5: with a configured capacity `n ≥ 1`, the history buffer built from
any sequence of records never holds more than `n` records; after inserting
`n + 1` records into an empty buffer, the oldest record `r0` is absent
(provided it does not also occur among the newer ones) and the newest `n`
remain in recency order (most recent first). -/
theorem shellOutput_capacity_bound (n : Nat) (hn : 1 ≤ n)
    (rs rest : List BufferObject) (r0 : BufferObject)
    (hrs : rs = r0 :: rest) (hlen : rest.length = n) (hnotin : r0 ∉ rest) :
    (∀ ss : List BufferObject, (insertAll n ss []).length ≤ n) ∧
    insertAll n rs [] = rest.reverse ∧ r0 ∉ insertAll n rs [] := by
  have hmain : insertAll n rs [] = rest.reverse := by
    rw [insertAll_nil_eq_take n hn, hrs]
    simp only [List.reverse_cons]
    have : rest.reverse.length = n := by simp [hlen]
    rw [← this, List.take_left]
  refine ⟨?_, hmain, ?_⟩
  · intro ss
    rw [insertAll_nil_eq_take n hn]
    simp [List.length_take]
  · rw [hmain]
    simpa using hnotin

theorem length_trimSpaces_le (l : Str) : (trimSpaces l).length ≤ l.length := by
  simp only [trimSpaces, List.length_reverse]
  calc ((l.dropWhile (fun x => x = ' ')).reverse.dropWhile (fun x => x = ' ')).length
      ≤ (l.dropWhile (fun x => x = ' ')).reverse.length :=
        (List.dropWhile_sublist _).length_le
    _ = (l.dropWhile (fun x => x = ' ')).length := List.length_reverse _
    _ ≤ l.length := (List.dropWhile_sublist _).length_le

theorem sanitize_eq_self_no_newline (d : Str) (h : sanitize d = d) : '\n' ∉ d := by
  have h1 : (removeChar '\n' d).length ≤ d.length := List.length_filter_le _ _
  have h2 : (removeChar '\t' (removeChar '\n' d)).length ≤ (removeChar '\n' d).length :=
    List.length_filter_le _ _
  have h3 : (sanitize d).length ≤ (removeChar '\t' (removeChar '\n' d)).length :=
    length_trimSpaces_le _
  rw [h] at h3
  have hlen : (removeChar '\n' d).length = d.length := by omega
  have hfix : removeChar '\n' d = d :=
    List.filter_eq_self.mpr (List.filter_length_eq_length.mp hlen)
  intro hmem
  have := List.filter_eq_self.mp hfix '\n' hmem
  simp at this

theorem trimSuffixNL_eq_self (d : Str) (h : '\n' ∉ d) : trimSuffixNL d = d := by
  unfold trimSuffixNL
  split
  · next hl => exact absurd (List.mem_of_getLast?_eq_some hl) h
  · rfl

theorem sanitize_append_newline (d : Str) :
    sanitize (d ++ str "\n") = sanitize d := by
  have : removeChar '\n' (d ++ str "\n") = removeChar '\n' d := by
    simp [removeChar, str, List.filter_append]
  simp [sanitize, this]

theorem sanitize_newline : sanitize (str "\n") = [] := rfl

/-- C6: with a non-empty, sanitize-invariant default token that does not
begin with an escape sequence, and the reader not in answer mode,
submitting an empty line produces the same token as typing the default
literally — hence the same transition on any child map — and the default
is echoed (recorded with itself as input and output) as if typed. -/
theorem processLine_default_equiv
    (defaultTok : Str) (buf : List BufferObject) (children : List (Str × Nat))
    (hne : defaultTok ≠ [])
    (hsan : sanitize defaultTok = defaultTok)
    (hesc : special (lastCommand buf) defaultTok = defaultTok) :
    (processLine [] defaultTok buf (str "\n")).1 = defaultTok ∧
    (processLine [] defaultTok buf (defaultTok ++ str "\n")).1 = defaultTok ∧
    getKV children (processLine [] defaultTok buf (str "\n")).1 =
      getKV children defaultTok ∧
    (processLine [] defaultTok buf (str "\n")).2 =
      some ⟨defaultTok, defaultTok, false⟩ := by
  have hpos : 0 < defaultTok.length := List.length_pos.mpr hne
  have hempty : (processLine [] defaultTok buf (str "\n")) =
      (defaultTok, some ⟨defaultTok, defaultTok, false⟩) := by
    simp [processLine, sanitize_newline, special, emptyUserInput, trimSuffixNL, hpos]
  have htyped : (processLine [] defaultTok buf (defaultTok ++ str "\n")).1 =
      defaultTok := by
    have hnl : '\n' ∉ defaultTok := sanitize_eq_self_no_newline defaultTok hsan
    have htr : trimSuffixNL defaultTok = defaultTok := trimSuffixNL_eq_self _ hnl
    simp only [processLine, sanitize_append_newline, hsan, hesc, emptyUserInput, htr]
    rcases defaultTok with _ | ⟨c, cs⟩
    · exact absurd rfl hne
    · simp
  exact ⟨by rw [hempty], htyped, by rw [hempty], by rw [hempty]⟩

/-- C6 witness: default token `yes`, empty buffer: the empty line and the
literally typed default both yield the token `yes`, agree on a concrete
child map, and the default is echoed. -/
theorem processLine_default_equiv_witness :
    (processLine [] (str "yes") [] (str "\n")).1 = str "yes" ∧
    (processLine [] (str "yes") [] (str "yes" ++ str "\n")).1 = str "yes" ∧
    getKV [(str "yes", 1), (str "no", 2)]
        (processLine [] (str "yes") [] (str "\n")).1 =
      getKV [(str "yes", 1), (str "no", 2)] (str "yes") ∧
    (processLine [] (str "yes") [] (str "\n")).2 =
      some ⟨str "yes", str "yes", false⟩ :=
  processLine_default_equiv (str "yes") [] [(str "yes", 1), (str "no", 2)]
    (by decide) (by decide) (by decide)

/-- C1: in the engine revision that tracks execution (`runFlowFunc`,
part_001): on a first visit to a node with a pending exec callback the
callback runs and the `Executed` flag is set, and on the revisit the exec
callback is not invoked again while the branch/goto closure (`Flow`) runs
again exactly as on the first visit. -/
theorem runFlowFunc_at_most_once (f : FlowN)
    (hexec : f.execPresent = true) (hnot : f.executed = false) :
    (runFlowFunc f).2.execRan = true ∧
    (runFlowFunc f).1.executed = true ∧
    (runFlowFunc f).2.flowRan = f.flowPresent ∧
    (runFlowFunc (runFlowFunc f).1).2.execRan = false ∧
    (runFlowFunc (runFlowFunc f).1).2.flowRan = f.flowPresent := by
  simp [runFlowFunc, hexec, hnot]

/-- C1 witness: a node with both callbacks present and not yet executed:
the first visit runs exec, the revisit skips exec but reruns the branch
closure. -/
theorem runFlowFunc_at_most_once_witness :
    (runFlowFunc ⟨true, true, false⟩).2.execRan = true ∧
    (runFlowFunc ⟨true, true, false⟩).1.executed = true ∧
    (runFlowFunc ⟨true, true, false⟩).2.flowRan = true ∧
    (runFlowFunc (runFlowFunc ⟨true, true, false⟩).1).2.execRan = false ∧
    (runFlowFunc (runFlowFunc ⟨true, true, false⟩).1).2.flowRan = true :=
  runFlowFunc_at_most_once ⟨true, true, false⟩ rfl rfl

/-- C2 counterexample: deadline 100ms, a callback needing two ticks that
returns nil even when cancelled: the deadline is exceeded before
completion and cancellation fires, yet `runFunc` returns nil rather than a
timeout error — the executor never synthesizes its own timeout error; it
only ever returns what the callback returns. -/
theorem runFunc_nil_after_deadline :
    jitterCancels 100 ⟨2, none, none⟩ = true ∧
    runFunc 100 ⟨2, none, none⟩ = none := by
  constructor <;> rfl

/-- C2 (amended): `runFunc` always returns the callback's own error: when
the deadline is exceeded before the callback completes, the executor fires
cancellation and returns whatever the callback returns upon observing it
(nil if the callback ignores cancellation); when the callback completes
first, it returns the callback's normal error (nil on success). -/
theorem runFunc_returns_callback_error (waitFor : Nat) (m : ExecModel) :
    runFunc waitFor m = callbackResult waitFor m ∧
    (deadlineTick waitFor ≤ m.ticksToComplete →
      jitterCancels waitFor m = true ∧ runFunc waitFor m = m.errWhenCancelled) ∧
    (m.ticksToComplete < deadlineTick waitFor →
      jitterCancels waitFor m = false ∧ runFunc waitFor m = m.errWhenFree) := by
  have hdt : deadlineTick waitFor ≠ 0 := by simp [deadlineTick]
  refine ⟨by simp [runFunc, hdt], ?_, ?_⟩
  · intro h
    have hc : jitterCancels waitFor m = true := by
      simp [jitterCancels]; omega
    exact ⟨hc, by simp [runFunc, hdt, callbackResult, hc]⟩
  · intro h
    have hc : jitterCancels waitFor m = false := by
      simp [jitterCancels]; omega
    exact ⟨hc, by simp [runFunc, hdt, callbackResult, hc]⟩

/-- C2 witness: a cooperative callback (as in the repository's tests)
exceeding a 100ms deadline returns its own cancellation error, which
`runFunc` passes through; a fast callback under a 10s deadline returns
nil. -/
theorem runFunc_returns_callback_error_witness :
    runFunc 100 ⟨14, some (str "timeout (expected)"), none⟩ =
      some (str "timeout (expected)") ∧
    runFunc 10000 ⟨2, none, none⟩ = none :=
  ⟨((runFunc_returns_callback_error 100 ⟨14, some (str "timeout (expected)"), none⟩).2.1
      (by decide)).2,
   ((runFunc_returns_callback_error 10000 ⟨2, none, none⟩).2.2 (by decide)).2⟩

/-- C3: a `GoTo` on a name with no registered branch substitutes, at
configuration time and without panicking, a Quit event carrying
`branch <name> not found`; visiting the configured node displays exactly
that message and terminates the session, and the nil branch closure of the
trailing GoTo event is never invoked (no runtime panic). -/
theorem goTo_missing_branch_quits (branches : List (Str × List CEvent))
    (name instruction : Str) (fuel : Nat)
    (h : getKV branches name = none) :
    runCEvents branches (fuel + 1) (goTo branches name instruction []) =
      ⟨[str "> " ++ branchNotFound name], true, false⟩ := by
  simp [goTo, h, runCEvents]

/-- C3 witness: no branches registered, `GoTo "missing_branch"`: the visit
emits the not-found farewell, terminates, and does not panic. -/
theorem goTo_missing_branch_quits_witness :
    runCEvents [] 1 (goTo [] (str "missing_branch") (str "hi") []) =
      ⟨[str "> " ++ branchNotFound (str "missing_branch")], true, false⟩ :=
  goTo_missing_branch_quits [] (str "missing_branch") (str "hi") 0 rfl

/-- C5 witness: a capacity-2 buffer receiving three records keeps the two
newest in recency order and evicts the oldest. -/
theorem shellOutput_capacity_bound_witness :
    insertAll 2 [⟨str "a", str "a", false⟩, ⟨str "b", str "b", false⟩,
        ⟨str "c", str "c", false⟩] [] =
      [⟨str "c", str "c", false⟩, ⟨str "b", str "b", false⟩] ∧
    ⟨str "a", str "a", false⟩ ∉ insertAll 2 [⟨str "a", str "a", false⟩,
        ⟨str "b", str "b", false⟩, ⟨str "c", str "c", false⟩] [] := by
  have h := shellOutput_capacity_bound 2 (by decide)
    [⟨str "a", str "a", false⟩, ⟨str "b", str "b", false⟩, ⟨str "c", str "c", false⟩]
    [⟨str "b", str "b", false⟩, ⟨str "c", str "c", false⟩]
    ⟨str "a", str "a", false⟩ rfl (by decide) (by decide)
  exact ⟨h.2.1, h.2.2⟩

theorem getKV_setKV {α : Type} (m : List (Str × α)) (k : Str) (v : α) :
    getKV (setKV m k v) k = some v := by
  unfold getKV setKV
  rw [List.find?_cons_of_pos _ (by simp)]
  rfl

theorem pushMsg_awaiting {F : Type} (q : Str) (st : AnswerSt F) :
    (pushMsg q st).awaitingAnswer = st.awaitingAnswer := by
  unfold pushMsg
  split <;> rfl

theorem handleAnswer_awaiting {F : Type} (e b : Str) (st : AnswerSt F) :
    (handleAnswer e b st).2.awaitingAnswer = st.awaitingAnswer := by
  unfold handleAnswer
  split
  · rfl
  · split <;> rfl

theorem handleIntAnswer_reject {F : Type} (e b : Str) (st : AnswerSt F)
    (h : goAtoi b = none) : (handleIntAnswer e b st).1 = false := by
  unfold handleIntAnswer
  rcases hh : handleAnswer e b st with ⟨ok, st1⟩
  cases ok <;> simp [hh, h]

theorem handleIntAnswer_awaiting {F : Type} (e b : Str) (st : AnswerSt F) :
    (handleIntAnswer e b st).2.awaitingAnswer = st.awaitingAnswer := by
  unfold handleIntAnswer
  rcases hh : handleAnswer e b st with ⟨ok, st1⟩
  have h1 : st1.awaitingAnswer = st.awaitingAnswer := by
    have := handleAnswer_awaiting e b st
    rw [hh] at this
    exact this
  cases ok <;> cases hgo : goAtoi b <;> simp [hh, hgo, h1]

theorem handleFloatAnswer_reject {F : Type} (parseFloat : Str → Option F)
    (e b : Str) (st : AnswerSt F) (h : parseFloat b = none) :
    (handleFloatAnswer parseFloat e b st).1 = false := by
  unfold handleFloatAnswer
  rcases hh : handleAnswer e b st with ⟨ok, st1⟩
  cases ok <;> simp [hh, h]

theorem handleFloatAnswer_awaiting {F : Type} (parseFloat : Str → Option F)
    (e b : Str) (st : AnswerSt F) :
    (handleFloatAnswer parseFloat e b st).2.awaitingAnswer = st.awaitingAnswer := by
  unfold handleFloatAnswer
  rcases hh : handleAnswer e b st with ⟨ok, st1⟩
  have h1 : st1.awaitingAnswer = st.awaitingAnswer := by
    have := handleAnswer_awaiting e b st
    rw [hh] at this
    exact this
  cases ok <;> cases hgo : parseFloat b <;> simp [hh, hgo, h1]

theorem awaitAnyInput_skip {F : Type}
    (handler : Str → AnswerSt F → Bool × AnswerSt F) (q : Str) (bads : List Str)
    (st : AnswerSt F)
    (hrej : ∀ b ∈ bads, ∀ s : AnswerSt F, (handler b s).1 = false)
    (hpres : ∀ b (s : AnswerSt F), (handler b s).2.awaitingAnswer = s.awaitingAnswer) :
    ∃ st1 : AnswerSt F, st1.awaitingAnswer = st.awaitingAnswer ∧
      ∀ tail, awaitAnyInput handler q (bads ++ tail) st =
        awaitAnyInput handler q tail st1 := by
  induction bads generalizing st with
  | nil => exact ⟨st, rfl, fun tail => rfl⟩
  | cons b bads ih =>
    rcases hh : handler b (pushMsg q st) with ⟨ok, st2⟩
    have hok : ok = false := by
      have := hrej b (by simp) (pushMsg q st)
      rw [hh] at this
      exact this
    subst hok
    have hst2 : st2.awaitingAnswer = st.awaitingAnswer := by
      have := hpres b (pushMsg q st)
      rw [hh] at this
      simpa [pushMsg_awaiting] using this
    obtain ⟨stf, hstf1, hstf2⟩ :=
      ih st2 (fun x hx => hrej x (List.mem_cons_of_mem _ hx))
    refine ⟨stf, by rw [hstf1, hst2], fun tail => ?_⟩
    show awaitAnyInput handler q (b :: (bads ++ tail)) st = _
    simp only [awaitAnyInput, hh]
    exact hstf2 tail

theorem handleIntAnswer_hint {F : Type} (e b : Str) (st : AnswerSt F)
    (hb : b ≠ []) (h : goAtoi b = none) :
    (handleIntAnswer e b st).1 = false ∧
    (handleIntAnswer e b st).2.outputs = intHint :: st.outputs := by
  have hlen : ¬ b.length < 1 := by
    cases b
    · exact absurd rfl hb
    · simp
  unfold handleIntAnswer handleAnswer
  by_cases h1 : b = e
  · subst h1
    simp [h]
  · simp [h1, hlen, h]

theorem handleFloatAnswer_hint {F : Type} (parseFloat : Str → Option F)
    (e b : Str) (st : AnswerSt F) (hb : b ≠ []) (h : parseFloat b = none) :
    (handleFloatAnswer parseFloat e b st).1 = false ∧
    (handleFloatAnswer parseFloat e b st).2.outputs = floatHint :: st.outputs := by
  have hlen : ¬ b.length < 1 := by
    cases b
    · exact absurd rfl hb
    · simp
  unfold handleFloatAnswer handleAnswer
  by_cases h1 : b = e
  · subst h1
    simp [h]
  · simp [h1, hlen, h]

theorem handleIntAnswer_success {F : Type} (e b : Str) (st : AnswerSt F)
    (n : Int) (h : goAtoi b = some n) :
    (handleIntAnswer e b st).1 = true ∧
    getKV (handleIntAnswer e b st).2.intQas st.awaitingAnswer = some n := by
  have hb : b ≠ [] := by
    intro he
    rw [he] at h
    simp [goAtoi] at h
  have hlen : ¬ b.length < 1 := by
    cases b
    · exact absurd rfl hb
    · simp
  unfold handleIntAnswer handleAnswer
  by_cases h1 : b = e
  · subst h1
    simp [h, getKV_setKV]
  · simp [h1, hlen, h, getKV_setKV]

theorem handleFloatAnswer_success {F : Type} (parseFloat : Str → Option F)
    (e b : Str) (st : AnswerSt F) (x : F) (h : parseFloat b = some x)
    (hb : b ≠ []) :
    (handleFloatAnswer parseFloat e b st).1 = true ∧
    getKV (handleFloatAnswer parseFloat e b st).2.floatQas st.awaitingAnswer = some x := by
  have hlen : ¬ b.length < 1 := by
    cases b
    · exact absurd rfl hb
    · simp
  unfold handleFloatAnswer handleAnswer
  by_cases h1 : b = e
  · subst h1
    simp [h, getKV_setKV]
  · simp [h1, hlen, h, getKV_setKV]

/-- C7: for `AskForInt`/`AskForFloat`, any number of unparseable
submissions are each rejected with the kind-specific hint (non-empty ones;
empty ones are rejected silently) and the question is re-asked; the loop
first accepts at the first parseable submission — later submissions are
irrelevant — and the value stored under the question's key is exactly the
parsed value.  `strconv.ParseFloat` is abstracted as `parseFloat`. -/
theorem askNumeric_first_parse (F : Type) (parseFloat : Str → Option F)
    (e q key good fgood : Str) (bads fbads rest frest : List Str)
    (n : Int) (x : F) (st stf : AnswerSt F)
    (hkey : st.awaitingAnswer = key) (hfkey : stf.awaitingAnswer = key)
    (hbads : ∀ b ∈ bads, goAtoi b = none)
    (hfbads : ∀ b ∈ fbads, parseFloat b = none)
    (hgood : goAtoi good = some n)
    (hfgood : parseFloat fgood = some x) (hfgne : fgood ≠ []) :
    (awaitAnyInput (handleIntAnswer e) q (bads ++ good :: rest) st =
      awaitAnyInput (handleIntAnswer e) q (bads ++ [good]) st) ∧
    ((awaitAnyInput (handleIntAnswer e) q (bads ++ good :: rest) st).map
      (fun s1 => getKV s1.intQas key) = some (some n)) ∧
    (awaitAnyInput (handleFloatAnswer parseFloat e) q (fbads ++ fgood :: frest) stf =
      awaitAnyInput (handleFloatAnswer parseFloat e) q (fbads ++ [fgood]) stf) ∧
    ((awaitAnyInput (handleFloatAnswer parseFloat e) q (fbads ++ fgood :: frest) stf).map
      (fun s1 => getKV s1.floatQas key) = some (some x)) ∧
    (∀ b (s : AnswerSt F), b ≠ [] → goAtoi b = none →
      (handleIntAnswer e b s).1 = false ∧
      (handleIntAnswer e b s).2.outputs = intHint :: s.outputs) ∧
    (∀ b (s : AnswerSt F), b ≠ [] → parseFloat b = none →
      (handleFloatAnswer parseFloat e b s).1 = false ∧
      (handleFloatAnswer parseFloat e b s).2.outputs = floatHint :: s.outputs) := by
  obtain ⟨st1, hst1aw, hst1⟩ := awaitAnyInput_skip (handleIntAnswer e) q bads st
    (fun b hb s => handleIntAnswer_reject e b s (hbads b hb))
    (fun b s => handleIntAnswer_awaiting e b s)
  obtain ⟨st2, hst2aw, hst2⟩ := awaitAnyInput_skip (handleFloatAnswer parseFloat e) q
    fbads stf
    (fun b hb s => handleFloatAnswer_reject parseFloat e b s (hfbads b hb))
    (fun b s => handleFloatAnswer_awaiting parseFloat e b s)
  have hint1 := handleIntAnswer_success e good (pushMsg q st1) n hgood
  rcases hgd : handleIntAnswer e good (pushMsg q st1) with ⟨ok1, sti⟩
  rw [hgd] at hint1
  have hok1 : ok1 = true := hint1.1
  subst hok1
  have hflt := handleFloatAnswer_success parseFloat e fgood (pushMsg q st2) x hfgood hfgne
  rcases hfd : handleFloatAnswer parseFloat e fgood (pushMsg q st2) with ⟨ok2, stg⟩
  rw [hfd] at hflt
  have hok2 : ok2 = true := hflt.1
  subst hok2
  have hrun1 : awaitAnyInput (handleIntAnswer e) q (bads ++ good :: rest) st =
      some sti := by
    rw [hst1 (good :: rest)]
    simp only [awaitAnyInput, hgd]
  have hrun1b : awaitAnyInput (handleIntAnswer e) q (bads ++ [good]) st =
      some sti := by
    rw [hst1 [good]]
    simp only [awaitAnyInput, hgd]
  have hrun2 : awaitAnyInput (handleFloatAnswer parseFloat e) q
      (fbads ++ fgood :: frest) stf = some stg := by
    rw [hst2 (fgood :: frest)]
    simp only [awaitAnyInput, hfd]
  have hrun2b : awaitAnyInput (handleFloatAnswer parseFloat e) q
      (fbads ++ [fgood]) stf = some stg := by
    rw [hst2 [fgood]]
    simp only [awaitAnyInput, hfd]
  refine ⟨by rw [hrun1, hrun1b], ?_, by rw [hrun2, hrun2b], ?_, ?_, ?_⟩
  · rw [hrun1]
    have : (pushMsg q st1).awaitingAnswer = key := by
      rw [pushMsg_awaiting, hst1aw, hkey]
    simpa [this] using hint1.2
  · rw [hrun2]
    have : (pushMsg q st2).awaitingAnswer = key := by
      rw [pushMsg_awaiting, hst2aw, hfkey]
    simpa [this] using hflt.2
  · exact fun b s hb hgo => handleIntAnswer_hint e b s hb hgo
  · exact fun b s hb hgo => handleFloatAnswer_hint parseFloat e b s hb hgo

/-- C7 witness: one rejected submission then `17` stores integer 17; one
rejected submission then `180` stores 180 via the parse parameter; the
rejected non-empty submission got the integer hint and did not advance. -/
theorem askNumeric_first_parse_witness :
    (awaitAnyInput (handleIntAnswer (str "u")) (str "> q")
        ([str "nope"] ++ str "17" :: []) (⟨str "apples", [], [], [], []⟩ : AnswerSt Int) =
      awaitAnyInput (handleIntAnswer (str "u")) (str "> q")
        ([str "nope"] ++ [str "17"]) (⟨str "apples", [], [], [], []⟩ : AnswerSt Int)) ∧
    ((awaitAnyInput (handleIntAnswer (str "u")) (str "> q")
        ([str "nope"] ++ str "17" :: []) (⟨str "apples", [], [], [], []⟩ : AnswerSt Int)).map
      (fun s1 => getKV s1.intQas (str "apples")) = some (some 17)) ∧
    ((awaitAnyInput (handleFloatAnswer goAtoi (str "u")) (str "> q")
        ([str "tall"] ++ str "180" :: []) (⟨str "apples", [], [], [], []⟩ : AnswerSt Int)).map
      (fun s1 => getKV s1.floatQas (str "apples")) = some (some 180)) ∧
    (handleIntAnswer (str "u") (str "nope")
      (⟨str "apples", [], [], [], []⟩ : AnswerSt Int)).1 = false ∧
    (handleIntAnswer (str "u") (str "nope")
      (⟨str "apples", [], [], [], []⟩ : AnswerSt Int)).2.outputs = [intHint] := by
  have h := askNumeric_first_parse Int goAtoi (str "u") (str "> q") (str "apples")
    (str "17") (str "180") [str "nope"] [str "tall"] [] [] 17 180
    (⟨str "apples", [], [], [], []⟩ : AnswerSt Int)
    (⟨str "apples", [], [], [], []⟩ : AnswerSt Int)
    rfl rfl (by decide) (by decide) (by decide) (by decide) (by decide)
  have hhint := h.2.2.2.2.1 (str "nope")
    (⟨str "apples", [], [], [], []⟩ : AnswerSt Int) (by decide) (by decide)
  exact ⟨h.1, h.2.1, h.2.2.2.1, hhint.1, hhint.2⟩

/-- C10: a non-empty submission other than the exit sentinel that fails
numeric validation is rejected, yet the raw submitted string is stored as
the string answer under the pending key (retrievable via `GetValue`),
while the integer/float answer maps are untouched; an empty submission
stores nothing anywhere and leaves the state unchanged (silent
re-prompt). -/
theorem handleAnswer_raw_stored (F : Type) (parseFloat : Str → Option F)
    (e cmd : Str) (st : AnswerSt F)
    (hne : cmd ≠ []) (hnu : cmd ≠ e) (henu : e ≠ [])
    (hgo : goAtoi cmd = none) (hfl : parseFloat cmd = none) :
    (handleIntAnswer e cmd st).1 = false ∧
    GetValue (handleIntAnswer e cmd st).2 st.awaitingAnswer = cmd ∧
    (handleIntAnswer e cmd st).2.intQas = st.intQas ∧
    (handleFloatAnswer parseFloat e cmd st).1 = false ∧
    GetValue (handleFloatAnswer parseFloat e cmd st).2 st.awaitingAnswer = cmd ∧
    (handleFloatAnswer parseFloat e cmd st).2.floatQas = st.floatQas ∧
    handleIntAnswer e [] st = (false, st) ∧
    handleFloatAnswer parseFloat e [] st = (false, st) := by
  have hlen : ¬ cmd.length < 1 := by
    cases cmd
    · exact absurd rfl hne
    · simp
  unfold handleIntAnswer handleFloatAnswer handleAnswer GetValue
  simp [hnu, hlen, hgo, hfl, getKV_setKV, Ne.symm henu]

/-- C10 witness: the unparseable submission `abc` is rejected but stored
verbatim as the string answer; the typed maps stay empty; the empty
submission changes nothing. -/
theorem handleAnswer_raw_stored_witness :
    (handleIntAnswer (str "u") (str "abc")
      (⟨str "k", [], [], [], []⟩ : AnswerSt Unit)).1 = false ∧
    GetValue (handleIntAnswer (str "u") (str "abc")
      (⟨str "k", [], [], [], []⟩ : AnswerSt Unit)).2 (str "k") = str "abc" ∧
    (handleIntAnswer (str "u") (str "abc")
      (⟨str "k", [], [], [], []⟩ : AnswerSt Unit)).2.intQas = [] ∧
    (handleFloatAnswer (fun _ => none) (str "u") (str "abc")
      (⟨str "k", [], [], [], []⟩ : AnswerSt Unit)).1 = false ∧
    GetValue (handleFloatAnswer (fun _ => none) (str "u") (str "abc")
      (⟨str "k", [], [], [], []⟩ : AnswerSt Unit)).2 (str "k") = str "abc" ∧
    (handleFloatAnswer (fun _ => none) (str "u") (str "abc")
      (⟨str "k", [], [], [], []⟩ : AnswerSt Unit)).2.floatQas = [] ∧
    handleIntAnswer (str "u") []
      (⟨str "k", [], [], [], []⟩ : AnswerSt Unit) =
      (false, ⟨str "k", [], [], [], []⟩) ∧
    handleFloatAnswer (fun _ => none) (str "u") []
      (⟨str "k", [], [], [], []⟩ : AnswerSt Unit) =
      (false, ⟨str "k", [], [], [], []⟩) :=
  handleAnswer_raw_stored Unit (fun _ => none) (str "u") (str "abc")
    (⟨str "k", [], [], [], []⟩ : AnswerSt Unit)
    (by decide) (by decide) (by decide) (by decide) rfl

theorem addCommandRun_children (inputs : List Str) (st : BuilderSt) (added : Bool)
    (hst : st.children.all (fun k => !(reservedWord k)) = true) :
    (addCommandRun inputs st added).1.children.all (fun k => !(reservedWord k)) = true := by
  induction inputs generalizing st added with
  | nil => exact hst
  | cons c rest ih =>
    by_cases hc : reservedWord c = true
    · simpa [addCommandRun, hc] using hst
    · have hreg : (registerCommand c added st).children.all
          (fun k => !(reservedWord k)) = true := by
        simp only [registerCommand, List.all_cons, Bool.and_eq_true]
        exact ⟨by simp [hc], hst⟩
      simpa [addCommandRun, hc] using ih (registerCommand c added st) true hreg

theorem addCommandRun_panics (inputs : List Str) (st : BuilderSt) (added : Bool)
    (r : Str) (hr : r ∈ inputs) (hres : reservedWord r = true) :
    (addCommandRun inputs st added).2.1.isSome = true := by
  induction inputs generalizing st added with
  | nil => cases hr
  | cons c rest ih =>
    by_cases hc : reservedWord c = true
    · simp [addCommandRun, hc]
    · rcases List.mem_cons.mp hr with rfl | hr2
      · exact absurd hres hc
      · simpa [addCommandRun, hc] using ih (registerCommand c added st) true hr2

/-- C8: starting from a node whose children contain no reserved token, if
any input of an `IfUserInputs`/`addCommand` call is one of the reserved
tokens `exit`, `quit`, `back`, a fatal configuration error (panic) is
raised at construction time, and no state reachable from `addCommand` —
including the partial state frozen by the panic — has a reserved token
registered as a child. -/
theorem addCommand_reserved_rejected (inputs : List Str) (st : BuilderSt) (r : Str)
    (hst : st.children.all (fun k => !(reservedWord k)) = true)
    (hr : r ∈ inputs) (hres : reservedWord r = true) :
    (addCommand inputs st).2.1.isSome = true ∧
    (addCommand inputs st).1.children.all (fun k => !(reservedWord k)) = true :=
  ⟨addCommandRun_panics inputs st false r hr hres,
   addCommandRun_children inputs st false hst⟩

/-- C8 witness: registering `["yes", "quit"]` on an empty node panics, and
the state at the panic holds no reserved child. -/
theorem addCommand_reserved_rejected_witness :
    (addCommand [str "yes", str "quit"] ⟨[], []⟩).2.1.isSome = true ∧
    (addCommand [str "yes", str "quit"] ⟨[], []⟩).1.children.all
      (fun k => !(reservedWord k)) = true :=
  addCommand_reserved_rejected [str "yes", str "quit"] ⟨[], []⟩ (str "quit")
    (by decide) (by decide) (by decide)

/-- C9: a token that is neither a sentinel, nor `quit`/`exit`, nor a child
of the current flow node is rejected: `handleCommand` returns `false`
(the session stays in command mode), the current-flow pointer and the
terminated flag are unchanged, the unrecognised-command message is pushed
onto the history buffer, and the prompt of the current node is exactly
what it was before. -/
theorem handleCommand_unmatched (graph : Nat → FlowNode) (errorUUID exitUUID : Str)
    (bufferSize : Nat) (command : Str) (st : Sess)
    (h1 : command ≠ errorUUID) (h2 : command ≠ exitUUID)
    (h3 : command ≠ str "quit") (h4 : command ≠ str "exit")
    (h5 : getKV (graph st.current).flows command = none) :
    handleCommand graph errorUUID exitUUID bufferSize command st =
      (false, badCommand bufferSize command st) ∧
    (badCommand bufferSize command st).current = st.current ∧
    (badCommand bufferSize command st).exited = st.exited ∧
    ((badCommand bufferSize command st).buffer.head?.map (fun rr => rr.Out)) =
      some (str "> unrecognised command " ++ [sq] ++ removeChar (Char.ofNat 10) command ++ [sq]) ∧
    instruct (graph (badCommand bufferSize command st).current) =
      instruct (graph st.current) := by
  have hq : ¬ (command = str "quit" ∨ command = str "exit") := by
    rintro (h | h)
    · exact h3 h
    · exact h4 h
  refine ⟨?_, rfl, rfl, ?_, rfl⟩
  · unfold handleCommand flowCommand
    simp [h1, h2, hq, h5]
  · unfold badCommand shellOutput
    simp

/-- C9 witness: at a node offering only `yes`, the token `bad` is
rejected, the pointer stays on node 0, the message is buffered and the
prompt is unchanged. -/
theorem handleCommand_unmatched_witness :
    handleCommand (fun _ => ⟨str "go?", [str "yes"], str "yes", [(str "yes", 1)]⟩)
        (str "e") (str "x") 10 (str "bad") ⟨0, [], false⟩ =
      (false, badCommand 10 (str "bad") ⟨0, [], false⟩) ∧
    (badCommand 10 (str "bad") ⟨0, [], false⟩).current = 0 ∧
    (badCommand 10 (str "bad") ⟨0, [], false⟩).exited = false ∧
    ((badCommand 10 (str "bad") ⟨0, [], false⟩).buffer.head?.map (fun rr => rr.Out)) =
      some (str "> unrecognised command " ++ [sq] ++
        removeChar (Char.ofNat 10) (str "bad") ++ [sq]) ∧
    instruct ((fun _ => ⟨str "go?", [str "yes"], str "yes", [(str "yes", 1)]⟩)
        (badCommand 10 (str "bad") ⟨0, [], false⟩).current) =
      instruct ((fun _ => (⟨str "go?", [str "yes"], str "yes", [(str "yes", 1)]⟩ : FlowNode)) 0) :=
  handleCommand_unmatched
    (fun _ => ⟨str "go?", [str "yes"], str "yes", [(str "yes", 1)]⟩)
    (str "e") (str "x") 10 (str "bad") ⟨0, [], false⟩
    (by decide) (by decide) (by decide) (by decide) (by decide)

end Shellwrapper
